import Mathlib

/-!
Shallow embedding of `src/chi.rs` (crate `hsc_tools`): validation and decoding
of the 10-digit Community Health Index (CHI) identifier.

The Rust source implements three operations on `&'static str`:
  * `Chi::from`  — validates byte length 10 and the modulus-11 check digit,
    failing through `assert!` (a Rust panic);
  * `date_of_birth` — decodes day/month/year digits and builds a
    `chrono::NaiveDate`, failing through `.unwrap()` panics;
  * `gender` — parity of the ninth digit.

Every failure in the source is a Rust panic (`assert!` or `.unwrap()`); the
embedding makes each failing control path an explicit `Except.error` carrying
a constructor that records which panic site fired.  Machine integers are
modelled as `Nat`/`Int` with explicit wrap-around (`% 256`, `% 2 ^ 32`) at the
spots where the source does `u8`/`u32` arithmetic on raw bytes; the wrapping
corresponds to Rust release-profile overflow semantics, and every input
examined below has code points ≥ 48 so debug and release profiles agree.
-/

deriving instance DecidableEq for Except

namespace HscChi

/-- `Gender` enum from `src/chi.rs`. -/
inductive Gender where
  | Male : Gender
  | Female : Gender
deriving DecidableEq, Repr

/-- The distinct run-time failure sites of `src/chi.rs`.  Each constructor is
one textual panic site in the source:
  * `lengthAssert` — the assertion with the message that a CHI should be 10
    characters long, in `Chi::from`;
  * `charIndexUnwrap` — a failing character-index unwrap, such as the one on
    the tenth character inside the checksum assertion of `Chi::from`;
  * `checksumAssert` — the assertion that the last digit passes the
    modulus-11 test, in `Chi::from`;
  * `sliceOutOfRange` — a byte-range slice such as the ones taken by
    `date_of_birth` falling outside the string;
  * `intParseUnwrap` — a failing integer-parse unwrap in `date_of_birth`;
  * `dateUnwrap` — the unwrap of `NaiveDate::from_ymd_opt` in
    `date_of_birth` when the date is invalid. -/
inductive Failure where
  | lengthAssert : Failure
  | charIndexUnwrap : Failure
  | checksumAssert : Failure
  | sliceOutOfRange : Failure
  | intParseUnwrap : Failure
  | dateUnwrap : Failure
deriving DecidableEq, Repr

/-- Classifies how each failure of `src/chi.rs` reaches the caller.  Every
failure site in the source is an `assert!` or an `.unwrap()`, both of which
abort by a Rust process panic; none of them returns an error value, so the
classification is `true` at each constructor. -/
def Failure.isRustPanic : Failure → Bool
  | .lengthAssert => true
  | .charIndexUnwrap => true
  | .checksumAssert => true
  | .sliceOutOfRange => true
  | .intParseUnwrap => true
  | .dateUnwrap => true

/-- The byte value of a character as Rust computes it by `c as u8`
(truncation of the code point to 8 bits). -/
def charByte (c : Char) : Nat := c.toNat % 256

/-- Rust `c as u8 - '0' as u8` on `u8` with wrap-around: the weight each
character contributes to the checksum before multiplication.  For an ASCII
decimal digit this is the digit's value 0–9; for any other character it is
the wrapped distance of its byte from byte 48. -/
def digitVal (c : Char) : Nat := (charByte c + 256 - 48) % 256

/-- The checksum weights `(2..=10).rev()` of `Chi::from`. -/
def chiWeights : List Nat := [10, 9, 8, 7, 6, 5, 4, 3, 2]

/-- The weighted checksum sum of `Chi::from`: the nine weights zipped with
the characters of the string (`zip` stops at the ninth character). -/
def weightedSum (cs : List Char) : Nat :=
  ((chiWeights.zip cs).map (fun p => p.1 * digitVal p.2)).sum

/-- Rust `str::len` — the length of the string in UTF-8 bytes. -/
def rustLen (s : String) : Nat := (s.data.map Char.utf8Size).sum

/-- `Chi::from` of `src/chi.rs`.  Checks the byte length is 10, computes the
weighted sum over the first nine characters, corrects the modulus
(`11 - sum % 11`, with 11 mapped to 0), and asserts the corrected value
equals the value of the tenth character.  On success it returns the input
string unchanged.  The `charIndexUnwrap` branch models
`string.chars().nth(9).unwrap()` evaluated inside the assertion. -/
def chiFrom (s : String) : Except Failure String :=
  if rustLen s ≠ 10 then Except.error Failure.lengthAssert
  else
    let sum := weightedSum s.data
    let modulus := 11 - sum % 11
    let corrected := if modulus = 11 then 0 else modulus
    match s.data.get? 9 with
    | none => Except.error Failure.charIndexUnwrap
    | some c9 =>
      if corrected = digitVal c9 then Except.ok s
      else Except.error Failure.checksumAssert

/-- The calendar date value produced by the date library
(`chrono::NaiveDate` restricted to its year/month/day observers). -/
structure Ymd where
  year : Int
  month : Nat
  day : Nat
deriving DecidableEq, Repr

/-- Proleptic-Gregorian leap-year test, as used by the date library. -/
def isLeapYear (y : Int) : Bool := y % 4 == 0 && (y % 100 != 0 || y % 400 == 0)

/-- Number of days in a month of a given year, Gregorian calendar; 0 for a
month outside 1–12. -/
def daysInMonth (y : Int) (m : Nat) : Nat :=
  match m with
  | 1 => 31
  | 2 => if isLeapYear y then 29 else 28
  | 3 => 31
  | 4 => 30
  | 5 => 31
  | 6 => 30
  | 7 => 31
  | 8 => 31
  | 9 => 30
  | 10 => 31
  | 11 => 30
  | 12 => 31
  | _ => 0

/-- `chrono::NaiveDate::from_ymd_opt`: builds a date when (year, month, day)
is a valid Gregorian calendar date, `none` otherwise.  (chrono also bounds
the year at about ±262000, far outside the years 1900–2099 that
`date_of_birth` can produce, so that bound is not modelled.) -/
def fromYmdOpt (y : Int) (m : Nat) (d : Nat) : Option Ymd :=
  if 1 ≤ m ∧ m ≤ 12 ∧ 1 ≤ d ∧ d ≤ daysInMonth y m then some ⟨y, m, d⟩ else none

/-- Rust `str::parse::<u32>` applied to a two-character slice: two decimal
digits, or a plus sign followed by one digit; anything else is a parse
error. -/
def parseNat2 (a b : Char) : Option Nat :=
  if a.isDigit && b.isDigit then some ((a.toNat - 48) * 10 + (b.toNat - 48))
  else if a = Char.ofNat 43 && b.isDigit then some (b.toNat - 48)
  else none

/-- Rust `str::parse::<i32>` applied to a two-character slice: like
`parseNat2` but a leading minus sign yields a negated one-digit value. -/
def parseInt2 (a b : Char) : Option Int :=
  if a.isDigit && b.isDigit then some (((a.toNat - 48) * 10 + (b.toNat - 48) : Nat) : Int)
  else if a = Char.ofNat 43 && b.isDigit then some ((b.toNat - 48 : Nat) : Int)
  else if a = Char.ofNat 45 && b.isDigit then some (-((b.toNat - 48 : Nat) : Int))
  else none

/-- The century resolution of `date_of_birth`: Rust
`if year_end > cutoff_2000 as i32 { 1900 + year_end } else { 2000 + year_end }`.
The cast `cutoff_2000 as i32` is value-preserving for every cutoff below
`2 ^ 31`, which covers the cutoff range 0–99 of the claims. -/
def centuryYear (yearEnd : Int) (cutoff2000 : Nat) : Int :=
  if yearEnd > (cutoff2000 : Int) then 1900 + yearEnd else 2000 + yearEnd

/-- Body of `date_of_birth` over the character list of the string: slices
`[0..2]`, `[2..4]`, `[4..6]` parsed as day, month and two-digit year, the
century rule, then `NaiveDate::from_ymd_opt(year, month, day).unwrap()`.
Character positions coincide with the source's byte positions on ASCII
content, which is the only content the claims evaluate; a byte slice
falling outside the string is the `sliceOutOfRange` panic. -/
def dobChars (cs : List Char) (cutoff2000 : Nat) : Except Failure Ymd :=
  match cs with
  | c0 :: c1 :: c2 :: c3 :: c4 :: c5 :: _ =>
    match parseNat2 c0 c1 with
    | none => Except.error Failure.intParseUnwrap
    | some day =>
      match parseNat2 c2 c3 with
      | none => Except.error Failure.intParseUnwrap
      | some month =>
        match parseInt2 c4 c5 with
        | none => Except.error Failure.intParseUnwrap
        | some yearEnd =>
          match fromYmdOpt (centuryYear yearEnd cutoff2000) month day with
          | none => Except.error Failure.dateUnwrap
          | some d => Except.ok d
  | _ => Except.error Failure.sliceOutOfRange

/-- `date_of_birth` of `src/chi.rs`. -/
def dateOfBirth (s : String) (cutoff2000 : Nat) : Except Failure Ymd :=
  dobChars s.data cutoff2000

/-- `gender` of `src/chi.rs`: `(self.chars().nth(8).unwrap() as u32 - '0' as u32) % 2`,
`u32` subtraction modelled with wrap-around, 0 mapped to `Female` and
anything else to `Male`. -/
def gender (s : String) : Except Failure Gender :=
  match s.data.get? 8 with
  | none => Except.error Failure.charIndexUnwrap
  | some c =>
    Except.ok (if (c.toNat % 2 ^ 32 + 2 ^ 32 - 48) % 2 ^ 32 % 2 = 0
      then Gender.Female else Gender.Male)

/-- Test string of `src/chi.rs`: a valid male CHI born 18 Nov 1943. -/
def chi1 : String := "1811431232"

/-- Test string of `src/chi.rs`: a valid female CHI born 13 Apr 2023. -/
def chi2 : String := "1304236366"

/-- Test string of `src/chi.rs`: a valid female CHI born 13 Apr 1949. -/
def chi3 : String := "1304496368"

/-- Nine-character string from the `wrong_length` test of `src/chi.rs`. -/
def chiNine : String := "100970123"

/-- A ten-byte string containing the letter A whose wrapped-byte checksum
happens to pass the modulus-11 test. -/
def chiLetter : String := "A000000006"

/-- A ten-digit string whose weighted sum is 12, congruent to 1 modulo 11. -/
def chiModOne : String := "0000000060"

/-- `chi1` with its check digit changed from 2 to 3, violating the checksum. -/
def chiBad : String := "1811431233"

/-- A valid CHI encoding 31 February 1950, an invalid calendar date. -/
def chiFeb31 : String := "3102501230"

/-- A valid CHI agreeing with `chi1` on the six date digits but differing in
positions 6–9. -/
def chiAlt : String := "1811430007"

theorem isDigit_iff (c : Char) : c.isDigit = true ↔ 48 ≤ c.toNat ∧ c.toNat ≤ 57 := by
  simp only [Char.isDigit, Bool.and_eq_true, decide_eq_true_eq, ge_iff_le,
    UInt32.le_def, BitVec.le_def]
  exact Iff.rfl

theorem utf8Size_of_digit (c : Char) (h : c.isDigit = true) : c.utf8Size = 1 := by
  rw [isDigit_iff] at h
  have h57 : c.toNat ≤ 57 := h.2
  have hv : c.val ≤ UInt32.ofNatCore 127 (by decide) := by
    simp only [UInt32.le_def, BitVec.le_def]
    have h127 : (UInt32.ofNatCore 127 (by decide)).toBitVec.toNat = 127 := by decide
    have hc : c.val.toBitVec.toNat = c.toNat := rfl
    omega
  unfold Char.utf8Size
  simp only [if_pos hv]

theorem digitVal_of_digit (c : Char) (h : c.isDigit = true) :
    digitVal c = c.toNat - 48 := by
  rw [isDigit_iff] at h
  unfold digitVal charByte
  omega

theorem digitVal_le_of_digit (c : Char) (h : c.isDigit = true) : digitVal c ≤ 9 := by
  rw [digitVal_of_digit c h]
  rw [isDigit_iff] at h
  omega

theorem rustLen_of_digits (s : String) (c0 c1 c2 c3 c4 c5 c6 c7 c8 c9 : Char)
    (hdata : s.data = [c0, c1, c2, c3, c4, c5, c6, c7, c8, c9])
    (hdig : ∀ c ∈ [c0, c1, c2, c3, c4, c5, c6, c7, c8, c9], c.isDigit = true) :
    rustLen s = 10 := by
  rw [rustLen, hdata]
  have e := fun c hc => utf8Size_of_digit c (hdig c hc)
  simp only [List.map_cons, List.map_nil, List.sum_cons, List.sum_nil]
  rw [e c0 (by simp), e c1 (by simp), e c2 (by simp), e c3 (by simp), e c4 (by simp),
    e c5 (by simp), e c6 (by simp), e c7 (by simp), e c8 (by simp), e c9 (by simp)]
  norm_num

theorem weightedSum_ten (c0 c1 c2 c3 c4 c5 c6 c7 c8 c9 : Char) :
    weightedSum [c0, c1, c2, c3, c4, c5, c6, c7, c8, c9] =
      10 * digitVal c0 + 9 * digitVal c1 + 8 * digitVal c2 + 7 * digitVal c3 +
      6 * digitVal c4 + 5 * digitVal c5 + 4 * digitVal c6 + 3 * digitVal c7 +
      2 * digitVal c8 := by
  simp [weightedSum, chiWeights]
  ring

theorem chiFrom_of_len (s : String) (hlen : rustLen s = 10) :
    chiFrom s =
      (match s.data.get? 9 with
      | none => Except.error Failure.charIndexUnwrap
      | some c9 =>
        if (if 11 - weightedSum s.data % 11 = 11 then 0 else 11 - weightedSum s.data % 11)
            = digitVal c9
        then Except.ok s
        else Except.error Failure.checksumAssert) := by
  rw [chiFrom, if_neg (by simp [hlen])]

theorem chiFrom_of_get9 (s : String) (c9 : Char) (hlen : rustLen s = 10)
    (hget : s.data.get? 9 = some c9) :
    chiFrom s =
      (if (if 11 - weightedSum s.data % 11 = 11 then 0 else 11 - weightedSum s.data % 11)
          = digitVal c9
      then Except.ok s
      else Except.error Failure.checksumAssert) := by
  rw [chiFrom_of_len s hlen, hget]

theorem weightedSum_digits (s : String) (c0 c1 c2 c3 c4 c5 c6 c7 c8 c9 : Char)
    (hdata : s.data = [c0, c1, c2, c3, c4, c5, c6, c7, c8, c9])
    (hdig : ∀ c ∈ [c0, c1, c2, c3, c4, c5, c6, c7, c8, c9], c.isDigit = true) :
    weightedSum s.data =
      10 * (c0.toNat - 48) + 9 * (c1.toNat - 48) + 8 * (c2.toNat - 48) +
      7 * (c3.toNat - 48) + 6 * (c4.toNat - 48) + 5 * (c5.toNat - 48) +
      4 * (c6.toNat - 48) + 3 * (c7.toNat - 48) + 2 * (c8.toNat - 48) := by
  rw [hdata, weightedSum_ten]
  rw [digitVal_of_digit c0 (hdig c0 (by simp)), digitVal_of_digit c1 (hdig c1 (by simp)),
    digitVal_of_digit c2 (hdig c2 (by simp)), digitVal_of_digit c3 (hdig c3 (by simp)),
    digitVal_of_digit c4 (hdig c4 (by simp)), digitVal_of_digit c5 (hdig c5 (by simp)),
    digitVal_of_digit c6 (hdig c6 (by simp)), digitVal_of_digit c7 (hdig c7 (by simp)),
    digitVal_of_digit c8 (hdig c8 (by simp))]

/-- Claim C1: every string of exactly 10 decimal digits whose last digit
equals 11 − (Σ (10−i)·digit[i] mod 11) over the first nine digits (a raw 11
mapped to 0) is accepted by `Chi::from`, which returns the input string
itself, so the digit content of the result equals the input. -/
theorem parse_accepts_valid_checksum
    (s : String) (c0 c1 c2 c3 c4 c5 c6 c7 c8 c9 : Char) (W : Nat)
    (hdata : s.data = [c0, c1, c2, c3, c4, c5, c6, c7, c8, c9])
    (hdig : ∀ c ∈ [c0, c1, c2, c3, c4, c5, c6, c7, c8, c9], c.isDigit = true)
    (hW : W = 10 * (c0.toNat - 48) + 9 * (c1.toNat - 48) + 8 * (c2.toNat - 48) +
      7 * (c3.toNat - 48) + 6 * (c4.toNat - 48) + 5 * (c5.toNat - 48) +
      4 * (c6.toNat - 48) + 3 * (c7.toNat - 48) + 2 * (c8.toNat - 48))
    (hcheck : c9.toNat - 48 = if 11 - W % 11 = 11 then 0 else 11 - W % 11) :
    chiFrom s = Except.ok s := by
  have hlen := rustLen_of_digits s c0 c1 c2 c3 c4 c5 c6 c7 c8 c9 hdata hdig
  rw [chiFrom_of_get9 s c9 hlen (by rw [hdata]; rfl)]
  have hws : weightedSum s.data = W := by
    rw [weightedSum_digits s c0 c1 c2 c3 c4 c5 c6 c7 c8 c9 hdata hdig, hW]
  rw [hws, digitVal_of_digit c9 (hdig c9 (by simp)), if_pos hcheck.symm]

theorem parse_accepts_valid_checksum_witness : chiFrom chi1 = Except.ok chi1 :=
  parse_accepts_valid_checksum chi1 (Char.ofNat 49) (Char.ofNat 56) (Char.ofNat 49)
    (Char.ofNat 49) (Char.ofNat 52) (Char.ofNat 51) (Char.ofNat 49) (Char.ofNat 50)
    (Char.ofNat 51) (Char.ofNat 50) 152 (by decide) (by decide) (by decide) (by decide)

/-- Claim C4: every string of ten decimal digits whose last digit differs
from the corrected modulus-11 value of the first nine digits is rejected by
`Chi::from` through the checksum assertion, a failure distinct from the
length (format) failure. -/
theorem parse_rejects_bad_checksum
    (s : String) (c0 c1 c2 c3 c4 c5 c6 c7 c8 c9 : Char) (W : Nat)
    (hdata : s.data = [c0, c1, c2, c3, c4, c5, c6, c7, c8, c9])
    (hdig : ∀ c ∈ [c0, c1, c2, c3, c4, c5, c6, c7, c8, c9], c.isDigit = true)
    (hW : W = 10 * (c0.toNat - 48) + 9 * (c1.toNat - 48) + 8 * (c2.toNat - 48) +
      7 * (c3.toNat - 48) + 6 * (c4.toNat - 48) + 5 * (c5.toNat - 48) +
      4 * (c6.toNat - 48) + 3 * (c7.toNat - 48) + 2 * (c8.toNat - 48))
    (hbad : c9.toNat - 48 ≠ if 11 - W % 11 = 11 then 0 else 11 - W % 11) :
    chiFrom s = Except.error Failure.checksumAssert ∧
      Failure.checksumAssert ≠ Failure.lengthAssert := by
  refine ⟨?_, by decide⟩
  have hlen := rustLen_of_digits s c0 c1 c2 c3 c4 c5 c6 c7 c8 c9 hdata hdig
  rw [chiFrom_of_get9 s c9 hlen (by rw [hdata]; rfl)]
  have hws : weightedSum s.data = W := by
    rw [weightedSum_digits s c0 c1 c2 c3 c4 c5 c6 c7 c8 c9 hdata hdig, hW]
  rw [hws, digitVal_of_digit c9 (hdig c9 (by simp)),
    if_neg (fun hc => hbad hc.symm)]

theorem parse_rejects_bad_checksum_witness :
    chiFrom chiBad = Except.error Failure.checksumAssert ∧
      Failure.checksumAssert ≠ Failure.lengthAssert :=
  parse_rejects_bad_checksum chiBad (Char.ofNat 49) (Char.ofNat 56) (Char.ofNat 49)
    (Char.ofNat 49) (Char.ofNat 52) (Char.ofNat 51) (Char.ofNat 49) (Char.ofNat 50)
    (Char.ofNat 51) (Char.ofNat 51) 152 (by decide) (by decide) (by decide) (by decide)

/-- Claim C9: a string of ten decimal digits whose weighted sum over the
first nine digits is congruent to 1 modulo 11 is always rejected, because the
corrected check value is then 10, which no decimal digit can equal; hence no
accepted identifier has weighted sum congruent to 1 modulo 11. -/
theorem parse_rejects_weighted_sum_mod_one
    (s : String) (c0 c1 c2 c3 c4 c5 c6 c7 c8 c9 : Char)
    (hdata : s.data = [c0, c1, c2, c3, c4, c5, c6, c7, c8, c9])
    (hdig : ∀ c ∈ [c0, c1, c2, c3, c4, c5, c6, c7, c8, c9], c.isDigit = true) :
    (weightedSum s.data % 11 = 1 → chiFrom s = Except.error Failure.checksumAssert)
    ∧ (chiFrom s = Except.ok s → weightedSum s.data % 11 ≠ 1) := by
  have hlen := rustLen_of_digits s c0 c1 c2 c3 c4 c5 c6 c7 c8 c9 hdata hdig
  have hfrom := chiFrom_of_get9 s c9 hlen (by rw [hdata]; rfl)
  have hfail : weightedSum s.data % 11 = 1 →
      chiFrom s = Except.error Failure.checksumAssert := by
    intro h1
    rw [hfrom, h1]
    have h9 : digitVal c9 ≤ 9 := digitVal_le_of_digit c9 (hdig c9 (by simp))
    have hnot : ¬(if 11 - 1 = 11 then 0 else 11 - 1) = digitVal c9 := by
      norm_num
      omega
    rw [if_neg hnot]
  refine ⟨hfail, fun hok h1 => ?_⟩
  have h := hfail h1
  rw [hok] at h
  exact Except.noConfusion h

theorem parse_rejects_weighted_sum_mod_one_witness :
    chiFrom chiModOne = Except.error Failure.checksumAssert :=
  (parse_rejects_weighted_sum_mod_one chiModOne (Char.ofNat 48) (Char.ofNat 48)
    (Char.ofNat 48) (Char.ofNat 48) (Char.ofNat 48) (Char.ofNat 48) (Char.ofNat 48)
    (Char.ofNat 48) (Char.ofNat 54) (Char.ofNat 48) (by decide) (by decide)).1 (by decide)

theorem parseNat2_digits (a b : Char) (ha : a.isDigit = true) (hb : b.isDigit = true) :
    parseNat2 a b = some ((a.toNat - 48) * 10 + (b.toNat - 48)) := by
  simp [parseNat2, ha, hb]

theorem parseInt2_digits (a b : Char) (ha : a.isDigit = true) (hb : b.isDigit = true) :
    parseInt2 a b = some (((a.toNat - 48) * 10 + (b.toNat - 48) : Nat) : Int) := by
  simp [parseInt2, ha, hb]

theorem fromYmdOpt_year (y : Int) (m d : Nat) (x : Ymd)
    (h : fromYmdOpt y m d = some x) : x.year = y := by
  unfold fromYmdOpt at h
  split at h
  · injection h with h
    rw [← h]
  · exact Option.noConfusion h

theorem dateOfBirth_digits (s : String) (cutoff : Nat)
    (c0 c1 c2 c3 c4 c5 c6 c7 c8 c9 : Char)
    (hdata : s.data = [c0, c1, c2, c3, c4, c5, c6, c7, c8, c9])
    (hdig : ∀ c ∈ [c0, c1, c2, c3, c4, c5, c6, c7, c8, c9], c.isDigit = true) :
    dateOfBirth s cutoff =
      (match fromYmdOpt
          (centuryYear (((c4.toNat - 48) * 10 + (c5.toNat - 48) : Nat)) cutoff)
          ((c2.toNat - 48) * 10 + (c3.toNat - 48))
          ((c0.toNat - 48) * 10 + (c1.toNat - 48)) with
      | none => Except.error Failure.dateUnwrap
      | some d => Except.ok d) := by
  rw [dateOfBirth, hdata]
  simp only [dobChars,
    parseNat2_digits c0 c1 (hdig c0 (by simp)) (hdig c1 (by simp)),
    parseNat2_digits c2 c3 (hdig c2 (by simp)) (hdig c3 (by simp)),
    parseInt2_digits c4 c5 (hdig c4 (by simp)) (hdig c5 (by simp))]

/-- Claim C2: for a validated all-digit identifier and any cutoff in [0, 99],
the year of the derived date is `centuryYear` of the two-digit year suffix,
and `centuryYear` resolves a suffix above the cutoff to 1900 + suffix and a
suffix at or below the cutoff to 2000 + suffix; in particular a suffix equal
to the cutoff resolves to the 2000s and a suffix of cutoff + 1 to the
1900s. -/
theorem dob_century_rule
    (s : String) (cutoff : Nat) (c0 c1 c2 c3 c4 c5 c6 c7 c8 c9 : Char)
    (hdata : s.data = [c0, c1, c2, c3, c4, c5, c6, c7, c8, c9])
    (hdig : ∀ c ∈ [c0, c1, c2, c3, c4, c5, c6, c7, c8, c9], c.isDigit = true)
    (hok : chiFrom s = Except.ok s) (hcut : cutoff ≤ 99) :
    (∀ d, dateOfBirth s cutoff = Except.ok d →
        d.year = centuryYear (((c4.toNat - 48) * 10 + (c5.toNat - 48) : Nat)) cutoff)
    ∧ (∀ ys : Int, ys > (cutoff : Int) → centuryYear ys cutoff = 1900 + ys)
    ∧ (∀ ys : Int, ys ≤ (cutoff : Int) → centuryYear ys cutoff = 2000 + ys)
    ∧ centuryYear (cutoff : Int) cutoff = 2000 + (cutoff : Int)
    ∧ centuryYear ((cutoff : Int) + 1) cutoff = 1900 + ((cutoff : Int) + 1) := by
  refine ⟨?_, ?_, ?_, ?_, ?_⟩
  · intro d hd
    rw [dateOfBirth_digits s cutoff c0 c1 c2 c3 c4 c5 c6 c7 c8 c9 hdata hdig] at hd
    cases hfy : fromYmdOpt
        (centuryYear (((c4.toNat - 48) * 10 + (c5.toNat - 48) : Nat)) cutoff)
        ((c2.toNat - 48) * 10 + (c3.toNat - 48))
        ((c0.toNat - 48) * 10 + (c1.toNat - 48)) with
    | none =>
      rw [hfy] at hd
      exact Except.noConfusion hd
    | some x =>
      rw [hfy] at hd
      injection hd with hd
      rw [← hd]
      exact fromYmdOpt_year _ _ _ x hfy
  · intro ys h
    rw [centuryYear, if_pos h]
  · intro ys h
    rw [centuryYear, if_neg (by omega)]
  · rw [centuryYear, if_neg (by omega)]
  · rw [centuryYear, if_pos (by omega)]

theorem dob_century_rule_witness :
    (Ymd.mk 2023 4 13).year = centuryYear 23 23
    ∧ centuryYear (23 : Int) 23 = 2000 + (23 : Int)
    ∧ centuryYear ((23 : Int) + 1) 23 = 1900 + ((23 : Int) + 1) := by
  have h := dob_century_rule chi2 23 (Char.ofNat 49) (Char.ofNat 51) (Char.ofNat 48)
    (Char.ofNat 52) (Char.ofNat 50) (Char.ofNat 51) (Char.ofNat 54) (Char.ofNat 51)
    (Char.ofNat 54) (Char.ofNat 54) (by decide) (by decide) (by decide) (by decide)
  exact ⟨h.1 ⟨2023, 4, 13⟩ (by decide), h.2.2.2.1, h.2.2.2.2⟩

/-- Claim C5 (amended): when the day/month digits of a validated all-digit
identifier do not form a valid calendar date in the year resolved by the
cutoff, `date_of_birth` fails at the unwrap of `NaiveDate::from_ymd_opt`, a
failure distinct from the length and checksum assertion failures; the source
surfaces it as a Rust panic, not as a returned error value. -/
theorem dob_invalid_date_fails
    (s : String) (cutoff : Nat) (c0 c1 c2 c3 c4 c5 c6 c7 c8 c9 : Char)
    (hdata : s.data = [c0, c1, c2, c3, c4, c5, c6, c7, c8, c9])
    (hdig : ∀ c ∈ [c0, c1, c2, c3, c4, c5, c6, c7, c8, c9], c.isDigit = true)
    (hok : chiFrom s = Except.ok s) (hcut : cutoff ≤ 99)
    (hbad : ¬(1 ≤ (c2.toNat - 48) * 10 + (c3.toNat - 48)
        ∧ (c2.toNat - 48) * 10 + (c3.toNat - 48) ≤ 12
        ∧ 1 ≤ (c0.toNat - 48) * 10 + (c1.toNat - 48)
        ∧ (c0.toNat - 48) * 10 + (c1.toNat - 48) ≤ daysInMonth
            (centuryYear (((c4.toNat - 48) * 10 + (c5.toNat - 48) : Nat)) cutoff)
            ((c2.toNat - 48) * 10 + (c3.toNat - 48)))) :
    dateOfBirth s cutoff = Except.error Failure.dateUnwrap
    ∧ Failure.dateUnwrap ≠ Failure.lengthAssert
    ∧ Failure.dateUnwrap ≠ Failure.checksumAssert
    ∧ Failure.isRustPanic Failure.dateUnwrap = true := by
  refine ⟨?_, by decide, by decide, rfl⟩
  rw [dateOfBirth_digits s cutoff c0 c1 c2 c3 c4 c5 c6 c7 c8 c9 hdata hdig]
  rw [show fromYmdOpt
      (centuryYear (((c4.toNat - 48) * 10 + (c5.toNat - 48) : Nat)) cutoff)
      ((c2.toNat - 48) * 10 + (c3.toNat - 48))
      ((c0.toNat - 48) * 10 + (c1.toNat - 48)) = none from by
    rw [fromYmdOpt, if_neg hbad]]

theorem dob_invalid_date_fails_witness :
    dateOfBirth chiFeb31 23 = Except.error Failure.dateUnwrap
    ∧ Failure.dateUnwrap ≠ Failure.lengthAssert
    ∧ Failure.dateUnwrap ≠ Failure.checksumAssert
    ∧ Failure.isRustPanic Failure.dateUnwrap = true :=
  dob_invalid_date_fails chiFeb31 23 (Char.ofNat 51) (Char.ofNat 49) (Char.ofNat 48)
    (Char.ofNat 50) (Char.ofNat 53) (Char.ofNat 48) (Char.ofNat 49) (Char.ofNat 50)
    (Char.ofNat 51) (Char.ofNat 48) (by decide) (by decide) (by decide) (by decide)
    (by decide)

/-- Claim C5 counterexample: `chiFeb31` is a validated identifier whose date
digits 31-02 are not a valid calendar date, and the `date_of_birth` failure
on it is classified as a Rust panic, contradicting the claim that the
failure is surfaced as an ordinary error value rather than a panic. -/
theorem dob_invalid_date_panics_cex :
    chiFrom chiFeb31 = Except.ok chiFeb31
    ∧ dateOfBirth chiFeb31 23 = Except.error Failure.dateUnwrap
    ∧ Failure.isRustPanic Failure.dateUnwrap = true := by decide

/-- Claim C3 (amended): every string whose UTF-8 byte length is not 10 is
rejected by `Chi::from` at the length assertion, before any checksum
arithmetic; the source delivers this failure as a Rust panic (`assert!`),
not as a returned error value. -/
theorem parse_wrong_length_fails (s : String) (h : rustLen s ≠ 10) :
    chiFrom s = Except.error Failure.lengthAssert
    ∧ Failure.isRustPanic Failure.lengthAssert = true :=
  ⟨by rw [chiFrom, if_pos h], rfl⟩

theorem parse_wrong_length_fails_witness :
    chiFrom chiNine = Except.error Failure.lengthAssert
    ∧ Failure.isRustPanic Failure.lengthAssert = true :=
  parse_wrong_length_fails chiNine (by decide)

/-- Claim C3 counterexample: on the nine-character input `chiNine` the
length failure of `Chi::from` is classified as a Rust panic, contradicting
the claim that the failure reaches the caller as an ordinary error value
and not as a panic. -/
theorem parse_wrong_length_panics_cex :
    chiFrom chiNine = Except.error Failure.lengthAssert
    ∧ Failure.isRustPanic Failure.lengthAssert = true := by decide

theorem chiFrom_ok_len (s : String) (h : chiFrom s = Except.ok s) : rustLen s = 10 := by
  by_cases hl : rustLen s = 10
  · exact hl
  · rw [chiFrom, if_pos hl] at h
    exact Except.noConfusion h

theorem chiFrom_ok_get9 (s : String) (h : chiFrom s = Except.ok s) :
    ∃ c9, s.data.get? 9 = some c9 := by
  have hl := chiFrom_ok_len s h
  rw [chiFrom_of_len s hl] at h
  cases hg : s.data.get? 9 with
  | none =>
    rw [hg] at h
    exact Except.noConfusion h
  | some c => exact ⟨c, rfl⟩

theorem get8_of_get9 (l : List Char) (c : Char) (h : l.get? 9 = some c) :
    ∃ b, l.get? 8 = some b := by
  have h9 : 9 < l.length := (List.get?_eq_some.mp h).1
  exact ⟨l.get ⟨8, by omega⟩, List.get?_eq_get (by omega)⟩

theorem gender_of_get8 (s : String) (c : Char) (h : s.data.get? 8 = some c) :
    gender s = Except.ok (if (c.toNat % 2 ^ 32 + 2 ^ 32 - 48) % 2 ^ 32 % 2 = 0
      then Gender.Female else Gender.Male) := by
  unfold gender
  rw [h]

/-- Claim C6: for every validated identifier, `gender` returns a value
(it has no failure path once the ninth character exists), and when the
character at position 8 is a decimal digit the result is `Female` for an
even digit and `Male` for an odd digit. -/
theorem gender_total_parity (s : String) (hok : chiFrom s = Except.ok s) :
    (∃ g, gender s = Except.ok g)
    ∧ ∀ c, s.data.get? 8 = some c → c.isDigit = true →
        (((c.toNat - 48) % 2 = 0 → gender s = Except.ok Gender.Female)
        ∧ ((c.toNat - 48) % 2 = 1 → gender s = Except.ok Gender.Male)) := by
  obtain ⟨c9, h9⟩ := chiFrom_ok_get9 s hok
  obtain ⟨c8, h8⟩ := get8_of_get9 s.data c9 h9
  refine ⟨⟨_, gender_of_get8 s c8 h8⟩, ?_⟩
  intro c hc hd
  have hpar : (c.toNat % 2 ^ 32 + 2 ^ 32 - 48) % 2 ^ 32 % 2 = (c.toNat - 48) % 2 := by
    rw [isDigit_iff] at hd
    omega
  constructor
  · intro h0
    rw [gender_of_get8 s c hc, hpar, h0]
    rfl
  · intro h1
    rw [gender_of_get8 s c hc, hpar, if_neg (by omega)]

theorem gender_total_parity_witness : gender chi1 = Except.ok Gender.Male :=
  ((gender_total_parity chi1 (by decide)).2 (Char.ofNat 51) (by decide) (by decide)).2
    (by decide)

/-- Claim C7 (amended): a string of UTF-8 byte length exactly 10 is never
rejected by the length (format) check of `Chi::from`, whatever its
characters; non-digit characters take part in the checksum arithmetic
through their wrapped byte value and the string is accepted whenever that
arithmetic satisfies the modulus-11 test. -/
theorem parse_len10_no_format_failure (s : String) (h : rustLen s = 10) :
    chiFrom s ≠ Except.error Failure.lengthAssert := by
  rw [chiFrom_of_len s h]
  cases hg : s.data.get? 9 with
  | none => simp
  | some c =>
    show (if (if 11 - weightedSum s.data % 11 = 11 then 0 else 11 - weightedSum s.data % 11)
        = digitVal c
      then Except.ok s
      else Except.error Failure.checksumAssert) ≠ Except.error Failure.lengthAssert
    split <;> split <;> simp

theorem parse_len10_no_format_failure_witness :
    chiFrom chiLetter ≠ Except.error Failure.lengthAssert :=
  parse_len10_no_format_failure chiLetter (by decide)

/-- Claim C7 counterexample: `chiLetter` has byte length 10 and contains the
letter A, which is not a decimal digit, yet `Chi::from` accepts it because
the wrapped byte value of A makes the weighted sum pass the modulus-11
test; the claim that every such string fails with a format error is
false. -/
theorem parse_accepts_nondigit_cex :
    rustLen chiLetter = 10
    ∧ (Char.ofNat 65) ∈ chiLetter.data
    ∧ Char.isDigit (Char.ofNat 65) = false
    ∧ chiFrom chiLetter = Except.ok chiLetter := by decide

/-- Claim C8: the three concrete scenarios of the test suite: `chi1` parses
and decodes to 18 Nov 1943 and Male, `chi2` to 13 Apr 2023 and Female,
`chi3` to 13 Apr 1949 and Female, all at cutoff 23. -/
theorem concrete_scenarios :
    chiFrom chi1 = Except.ok chi1
    ∧ dateOfBirth chi1 23 = Except.ok ⟨1943, 11, 18⟩
    ∧ gender chi1 = Except.ok Gender.Male
    ∧ chiFrom chi2 = Except.ok chi2
    ∧ dateOfBirth chi2 23 = Except.ok ⟨2023, 4, 13⟩
    ∧ gender chi2 = Except.ok Gender.Female
    ∧ chiFrom chi3 = Except.ok chi3
    ∧ dateOfBirth chi3 23 = Except.ok ⟨1949, 4, 13⟩
    ∧ gender chi3 = Except.ok Gender.Female := by decide

/-- Claim C10: `date_of_birth` reads only the first six characters of the
identifier, so two validated identifiers agreeing on positions 0–5 produce
the same result for any cutoff, independently of positions 6–9. -/
theorem dob_first_six
    (s t : String) (cutoff : Nat) (c0 c1 c2 c3 c4 c5 : Char) (r r2 : List Char)
    (hs : s.data = c0 :: c1 :: c2 :: c3 :: c4 :: c5 :: r)
    (ht : t.data = c0 :: c1 :: c2 :: c3 :: c4 :: c5 :: r2)
    (hoks : chiFrom s = Except.ok s) (hokt : chiFrom t = Except.ok t) :
    dateOfBirth s cutoff = dateOfBirth t cutoff := by
  rw [dateOfBirth, dateOfBirth, hs, ht]
  rfl

theorem dob_first_six_witness : dateOfBirth chi1 23 = dateOfBirth chiAlt 23 :=
  dob_first_six chi1 chiAlt 23 (Char.ofNat 49) (Char.ofNat 56) (Char.ofNat 49)
    (Char.ofNat 49) (Char.ofNat 52) (Char.ofNat 51)
    [Char.ofNat 49, Char.ofNat 50, Char.ofNat 51, Char.ofNat 50]
    [Char.ofNat 48, Char.ofNat 48, Char.ofNat 48, Char.ofNat 55]
    (by decide) (by decide) (by decide) (by decide)

end HscChi
